import Mathlib

/-!
# webping: the probe setup, the resolver and the probe loop

A shallow embedding of `main.go` (package `main` of patcharp/webping).

Conventions of the embedding.

* Go strings are modelled by `String`; every operation goes through the list of
  characters, which agrees with Go's byte-wise operations on valid UTF-8 since
  all the patterns the program searches for (`"http"`, `":"`, digits) are ASCII.
* Go `int` and `time.Duration` are 64-bit signed; they are modelled by `Int`,
  and the one place where the width is visible (`strconv.Atoi` saturating on a
  range error) is explicit.
* The outside world is passed in: the URL parser (`url.Parse`), the DNS answer
  (`LookupHost`), the random source (`rand.Intn`), the clock (`time.Since`),
  the behaviour of the HTTP client and the `%.2f` rendering of a float.
* Printing, DNS lookups, dialling and sleeping are recorded as a list of
  `Effect`s, in program order.
-/

namespace Webping

/-! ## Strings (Go package `strings`) -/

/-- Go `strings.HasPrefix(s, p)`. -/
def HasPrefix (s p : String) : Bool := p.toList.isPrefixOf s.toList

/-- Go `strings.Contains(s, ":")`, for a one-character pattern `c`. -/
def Contains (s : String) (c : Char) : Bool := s.toList.contains c

/-- Splits a list at the last occurrence of `c`: `some (before, after)` with
`c` not in `after`, or `none` when `c` does not occur
(Go `strings.LastIndexByte` followed by the two slices around the index). -/
def splitLast (c : Char) : List Char → Option (List Char × List Char)
  | [] => none
  | x :: xs =>
    match splitLast c xs with
    | some (a, b) => some (x :: a, b)
    | none => if x = c then some ([], xs) else none

/-- Splits a list at the first occurrence of `c` (Go `strings.Cut`): the part
before, and the part after when `c` occurs. -/
def cutFirst (c : Char) : List Char → List Char × Option (List Char)
  | [] => ([], none)
  | x :: xs =>
    if x = c then ([], some xs)
    else let r := cutFirst c xs; (x :: r.1, r.2)

/-! ## `strconv.Atoi` -/

/-- Outcome of Go `strconv.ParseUint`: a value, a syntax error or a range error. -/
inductive UintResult where
  | ok (n : Nat)
  | syntaxErr
  | rangeErr
  deriving DecidableEq

/-- Largest `uint64`. -/
def maxUint64 : Nat := 2 ^ 64 - 1

/-- The loop of Go `strconv.ParseUint(s, 10, 64)`: a byte that is not a digit is a
syntax error; `n >= cutoff` (where `cutoff = maxUint64/10 + 1`) or a sum above
`maxUint64` is a range error, returned at once. -/
def parseUintLoop : Nat → List Char → UintResult
  | n, [] => .ok n
  | n, c :: cs =>
    if c.isDigit then
      if n ≥ maxUint64 / 10 + 1 then .rangeErr
      else if n * 10 + (c.toNat - 48) > maxUint64 then .rangeErr
      else parseUintLoop (n * 10 + (c.toNat - 48)) cs
    else .syntaxErr

/-- Go `strconv.ParseUint(s, 10, 64)`. -/
def ParseUint (s : List Char) : UintResult :=
  match s with
  | [] => .syntaxErr
  | _ => parseUintLoop 0 s

/-- Largest Go `int` (64-bit). -/
def maxInt : Int := 2 ^ 63 - 1

/-- Smallest Go `int` (64-bit). -/
def minInt : Int := -(2 ^ 63)

/-- Go `strconv.ParseInt(s, 10, 0)` after the sign has been split off: the value
and whether `err == nil`. A syntax error gives `0`; a magnitude out of range
gives the nearest bound. -/
def parseIntBody (neg : Bool) (ds : List Char) : Int × Bool :=
  let clamp (un : Nat) (ok : Bool) : Int × Bool :=
    if !neg && decide ((un : Int) ≥ 2 ^ 63) then (maxInt, false)
    else if neg && decide ((un : Int) > 2 ^ 63) then (minInt, false)
    else (if neg then -(un : Int) else (un : Int), ok)
  match ParseUint ds with
  | .syntaxErr => (0, false)
  | .rangeErr => clamp maxUint64 false
  | .ok un => clamp un true

/-- Go `strconv.Atoi(s)` on a 64-bit platform: the value and whether
`err == nil`. (The fast path of `Atoi` for fewer than 19 bytes computes the same
value as `ParseInt`, which this follows.) -/
def Atoi (s : String) : Int × Bool :=
  match s.toList with
  | [] => (0, false)
  | '+' :: ds => parseIntBody false ds
  | '-' :: ds => parseIntBody true ds
  | ds => parseIntBody false ds

/-- The value of a digit string in base ten, most significant digit first
(`Nat.ofDigits` reads the least significant digit first). -/
def decimalValue (s : String) : Nat :=
  Nat.ofDigits 10 (s.toList.reverse.map fun c => c.toNat - 48)

/-! ## `net/url`: the parsed URL and its accessors -/

/-- The fields of Go `url.URL` that the program or the parser model touches. -/
structure URL where
  Scheme : String
  Opaque : String
  Host : String
  Path : String
  RawQuery : String
  Fragment : String
  deriving DecidableEq

/-- Go `url.validOptionalPort`: empty, or a colon followed by digits only. -/
def validOptionalPort : List Char → Bool
  | [] => true
  | c :: ds => c = ':' && ds.all Char.isDigit

/-- Go `url.splitHostPort`: splits at the last colon when what follows is a
valid optional port, then strips the brackets of an IPv6 literal. -/
def splitHostPort (hostPort : String) : String × String :=
  let hp : List Char × List Char :=
    match splitLast ':' hostPort.toList with
    | some (h, p) => if validOptionalPort (':' :: p) then (h, p) else (hostPort.toList, [])
    | none => (hostPort.toList, [])
  let host := hp.1
  let host :=
    if host.head? = some '[' && host.getLast? = some ']' then
      (host.drop 1).dropLast
    else host
  (String.mk host, String.mk hp.2)

/-- Go `(*URL).Port()`. -/
def URL.Port (u : URL) : String := (splitHostPort u.Host).2

/-- Go `(*URL).Hostname()`. -/
def URL.Hostname (u : URL) : String := (splitHostPort u.Host).1

/-! ## `net/url`: a model of `url.Parse`

The program hands the target to Go's `url.Parse`. The general theorems below
hold for every parser; this model of the standard library's parser is used to
evaluate the program on concrete targets. It follows `Parse`, `parse`,
`getScheme`, `parseAuthority` and `parseHost` of `net/url`. Two kinds of input
are outside the model. Percent escapes: a string with a `%` is reported as an
error here, whereas Go decodes it. Brackets: for a host in brackets only the
port after `]` is checked, and a `[` inside a host is accepted, whereas recent
Go releases also require an IP literal between the brackets. -/

/-- Go `url.stringContainsCTLByte`. -/
def stringContainsCTLByte (s : List Char) : Bool :=
  s.any fun c => c.toNat < 32 || c.toNat = 127

/-- The loop of Go `url.getScheme`, at index `i` with `cs` left to read: the
scheme and the rest, or an error for a leading colon. -/
def getSchemeLoop (rawURL : List Char) : Nat → List Char → Except String (List Char × List Char)
  | _, [] => .ok ([], rawURL)
  | i, c :: cs =>
    if c.isAlpha then getSchemeLoop rawURL (i + 1) cs
    else if c.isDigit || c = '+' || c = '-' || c = '.' then
      if i = 0 then .ok ([], rawURL) else getSchemeLoop rawURL (i + 1) cs
    else if c = ':' then
      if i = 0 then .error "missing protocol scheme" else .ok (rawURL.take i, cs)
    else .ok ([], rawURL)

/-- Go `url.getScheme`. -/
def getScheme (rawURL : List Char) : Except String (List Char × List Char) :=
  getSchemeLoop rawURL 0 rawURL

/-- Go `url.validUserinfo`. -/
def validUserinfo (s : List Char) : Bool :=
  s.all fun c => c.isAlphanum || ("-._:~!$&()*+,;=%@".toList.contains c) || c = Char.ofNat 39

/-- The bytes Go's `unescape(host, encodeHost)` accepts unescaped: those at or
above `0x80`, and the ASCII ones for which `shouldEscape(c, encodeHost)` is
false. -/
def validHostByte (c : Char) : Bool :=
  c.toNat ≥ 128 || c.isAlphanum || ("-_.~!$&()*+,;=:[]<>".toList.contains c)
    || c = Char.ofNat 39 || c = Char.ofNat 34

/-- Go `url.parseHost`, on a host without `%`. -/
def parseHost (host : List Char) : Except String (List Char) :=
  let portOk : Except String Unit :=
    if host.head? = some '[' then
      match splitLast ']' host with
      | none => .error "missing ']' in host"
      | some (_, colonPort) =>
        if validOptionalPort colonPort then .ok () else .error "invalid port after host"
    else
      match splitLast ':' host with
      | some (_, p) =>
        if validOptionalPort (':' :: p) then .ok () else .error "invalid port after host"
      | none => .ok ()
  match portOk with
  | .error e => .error e
  | .ok () => if host.all validHostByte then .ok host else .error "invalid character in host name"

/-- Go `url.parseAuthority`, keeping the host only. -/
def parseAuthority (authority : List Char) : Except String (List Char) :=
  match splitLast '@' authority with
  | none => parseHost authority
  | some (userinfo, host) =>
    match parseHost host with
    | .error e => .error e
    | .ok h => if validUserinfo userinfo then .ok h else .error "net/url: invalid userinfo"

/-- Go `url.parse(rawURL, false)`, on a string without `#` and `%`. -/
def parseNoFragment (rawURL : List Char) : Except String URL :=
  if stringContainsCTLByte rawURL then .error "net/url: invalid control character in URL"
  else if rawURL = ['*'] then .ok ⟨"", "", "", "*", "", ""⟩
  else
    match getScheme rawURL with
    | .error e => .error e
    | .ok (scheme, rest) =>
      let scheme := String.mk (scheme.map Char.toLower)
      let q := cutFirst '?' rest
      let rest := q.1
      let rawQuery := String.mk (q.2.getD [])
      if rest.head? ≠ some '/' && scheme ≠ "" then
        .ok ⟨scheme, String.mk rest, "", "", rawQuery, ""⟩
      else if rest.head? ≠ some '/' && (cutFirst '/' rest).1.contains ':' then
        .error "first path segment in URL cannot contain colon"
      else if (scheme ≠ "" || !("///".toList.isPrefixOf rest)) && "//".toList.isPrefixOf rest then
        let a := cutFirst '/' (rest.drop 2)
        let path : List Char := match a.2 with | some r => '/' :: r | none => []
        match parseAuthority a.1 with
        | .error e => .error e
        | .ok host => .ok ⟨scheme, "", String.mk host, String.mk path, rawQuery, ""⟩
      else .ok ⟨scheme, "", "", String.mk rest, rawQuery, ""⟩

/-- Go `url.Parse(rawURL)`, on a string without `%`: cuts the fragment off,
parses the rest, then stores the fragment. -/
def urlParse (rawURL : String) : Except String URL :=
  if rawURL.toList.contains '%' then .error "escape sequence (outside the model)"
  else
    let f := cutFirst '#' rawURL.toList
    match parseNoFragment f.1 with
    | .error e => .error e
    | .ok u => .ok { u with Fragment := String.mk (f.2.getD []) }

/-! ## The program: data model (`main.go`, lines 19-37) -/

/-- Go `type Request struct`. `Timeout` is a `time.Duration` in nanoseconds. -/
structure Request where
  Url : String
  IpAddr : String
  Port : Int
  Method : String
  Body : List Nat
  Headers : List (String × String)
  Timeout : Int
  SkipVerify : Bool
  DnsIp : String
  ExpectedStatus : Int
  deriving DecidableEq

/-- Go `type Response struct`. -/
structure Response where
  RemoteAddr : String
  Status : Int
  body : List Nat
  Headers : List (String × String)
  deriving DecidableEq

/-- What the program does to the outside world, one constructor per statement
with an effect. -/
inductive Effect where
  /-- Line 70: `fmt.Println("Invalid target url:", target.Url)`. -/
  | printInvalidUrl (url : String)
  /-- Line 71: the usage line. -/
  | printUsage
  /-- Line 84: `fmt.Println("Invalid target port:", target.Port)`. -/
  | printInvalidPort (port : Int)
  /-- Line 172: `r.LookupHost`, through the DNS server `dnsIp` on port 53. -/
  | lookupHost (dnsIp host : String)
  /-- Line 91: `fmt.Println("Invalid target address:", target.Url)`. -/
  | printInvalidAddress (url : String)
  /-- Line 92: the DNS hint line. -/
  | printErrDns
  /-- Line 96: the startup banner. -/
  | printBanner (url : String) (port : Int) (method : String) (timeout : Int)
  /-- One reading of `time.Since(start)`, in nanoseconds. -/
  | since (d : Int)
  /-- Line 137: `client.Do(r)`. -/
  | clientDo (method url : String)
  /-- Line 129: `dialer.DialContext(ctx, network, addr)`. -/
  | dial (network addr : String)
  /-- The `fmt.Printf` of `display`, with the text printed. -/
  | display (text : String)
  /-- A call `time.Sleep(d)`. -/
  | sleep (d : Int)
  deriving DecidableEq

/-- The request `main` builds (lines 49-60) from the flags `--target` and `--ip`,
the other flags at their defaults. -/
def defaultRequest (target ipAddr : String) : Request :=
  { Url := target, IpAddr := ipAddr, Port := 0, Method := "GET", Body := [], Headers := [],
    Timeout := 2 * 1000000000, SkipVerify := false, DnsIp := "1.1.1.1", ExpectedStatus := 200 }

/-! ## `resolve` (lines 159-189) -/

/-- Go `rand.Intn(n)` for `n > 0`: some value of `[0, n)`, here the raw draw of
the random source reduced modulo `n`. -/
def randIntn (draw n : Nat) : Nat := draw % n

/-- The IPv4 filter of `resolve` (lines 174-179). -/
def ipv4Filter (ip : List String) : List String :=
  ip.filter fun addr => !Contains addr ':'

/-- Go `resolve(u, dnsIp)`: the address returned and the effects. `lookupHost
dnsIp host` is the slice `LookupHost` returns (empty when the lookup fails, its
error being dropped) and `draw` is the raw draw of the random source. -/
def resolve (lookupHost : String → String → List String) (draw : Nat)
    (u : Option URL) (dnsIp : String) : String × List Effect :=
  match u with
  | none => ("", [])
  | some u =>
    let ip := lookupHost dnsIp u.Hostname
    let ipv4 := ipv4Filter ip
    let eff := [Effect.lookupHost dnsIp u.Hostname]
    match ipv4.length with
    | 0 => ("", eff)
    | 1 => (ipv4.getD 0 "", eff)
    | _ =>
      let n := randIntn draw (ipv4.length - 1)
      (ipv4.getD n "", eff)

/-! ## `probe`: the setup phase (lines 64-96) -/

/-- One second, as a `time.Duration`. -/
def second : Int := 1000000000

/-- State of `probe` when the setup is over: the request, the effects so far and
whether control reaches the `for` loop (`false`: `probe` has returned). -/
structure SetupResult where
  target : Request
  effects : List Effect
  loop : Bool
  deriving DecidableEq

/-- Lines 65-67 of `probe`: the scheme default. -/
def defaultScheme (target : Request) : Request :=
  if !HasPrefix target.Url "http" then { target with Url := "http://" ++ target.Url } else target

/-- Lines 88-96 of `probe`: the address is resolved unless one was given, then
the banner is printed. -/
def setupAddress (lookupHost : String → String → List String) (draw : Nat)
    (u : URL) (target : Request) : SetupResult :=
  let banner (t : Request) := Effect.printBanner t.Url t.Port t.Method t.Timeout
  if target.IpAddr = "" then
    let r := resolve lookupHost draw (some u) target.DnsIp
    let target := { target with IpAddr := r.1 }
    if target.IpAddr = "" then
      ⟨target, r.2 ++ [.printInvalidAddress target.Url, .printErrDns], false⟩
    else ⟨target, r.2 ++ [banner target], true⟩
  else ⟨target, [banner target], true⟩

/-- Lines 64-96 of `probe`, for the parser `parse` in the place of `url.Parse`. -/
def probeSetup (parse : String → Except String URL)
    (lookupHost : String → String → List String) (draw : Nat) (target : Request) :
    SetupResult :=
  let target := defaultScheme target
  match parse target.Url with
  | .error _ => ⟨target, [.printInvalidUrl target.Url, .printUsage], false⟩
  | .ok u =>
    let target := { target with Port := (Atoi u.Port).1 }
    if target.Port = 0 then
      if u.Scheme = "http" then
        setupAddress lookupHost draw u { target with Port := 80 }
      else if u.Scheme = "https" then
        setupAddress lookupHost draw u { target with Port := 443 }
      else ⟨target, [.printInvalidPort target.Port], false⟩
    else setupAddress lookupHost draw u target

/-! ## `display` (lines 191-201) -/

/-- Go `d.Microseconds()`: integer division truncating toward zero. -/
def microseconds (d : Int) : Int := Int.tdiv d 1000

/-- Go `display(r, resp, err, d)`: the text printed. `err` is `none` for `nil`
and the message of the error otherwise; `fmtMs us` is the rendering by `%.2f` of
`float64(us)/1000.0`. -/
def display (fmtMs : Int → String) (r : Request) (resp : Response) (err : Option String)
    (d : Int) : String :=
  match err with
  | some e =>
    "Remote " ++ resp.RemoteAddr ++ ":" ++ toString r.Port ++ " time=" ++ fmtMs (microseconds d)
      ++ "ms err=" ++ e ++ "\n"
  | none =>
    let status := if resp.Status ≠ r.ExpectedStatus then "FAIL" else "OK"
    "Connected " ++ resp.RemoteAddr ++ " code=" ++ toString resp.Status ++ " time="
      ++ fmtMs (microseconds d) ++ "ms - " ++ status ++ "\n"

/-! ## `probe`: one iteration of the loop (lines 98-155) -/

/-- A response of the HTTP client: the status code, the body and, for each header
key, its first value and the other ones. -/
structure HttpResponse where
  StatusCode : Int
  Body : List Nat
  Header : List (String × String × List String)
  deriving DecidableEq

/-- The outside world during one iteration: the readings of `time.Since(start)`
in the order they are taken, the error of `http.NewRequest` if any, the
`(network, addr)` pairs with which the HTTP client calls the dial hook, the
address the `GotConn` hook reports if it fires, and what `client.Do` returns. -/
structure IterEnv where
  since : Nat → Int
  newRequestErr : Option String
  dialArgs : List (String × String)
  gotConn : Option String
  doResult : Except String HttpResponse

/-- Wrap-around of a signed 64-bit integer. -/
def wrapInt64 (x : Int) : Int := (x + 2 ^ 63) % 2 ^ 64 - 2 ^ 63

/-- Go `time.Second - d` for a `time.Duration` `d`, an `int64`. -/
def untilSecond (d : Int) : Int := wrapInt64 (second - d)

/-- The dial hook of lines 127-130: the address passed in is overwritten by
`fmt.Sprintf("%s:%d", target.IpAddr, target.Port)`. -/
def dialContext (target : Request) (network _addr : String) : Effect :=
  let addr := target.IpAddr ++ ":" ++ toString target.Port
  .dial network addr

/-- Lines 98-155: the body of the `for` loop, once. -/
def probeIteration (fmtMs : Int → String) (target : Request) (env : IterEnv) : List Effect :=
  let result : Response := ⟨"", 0, [], []⟩
  let result := if target.IpAddr ≠ "" then { result with RemoteAddr := target.IpAddr } else result
  match env.newRequestErr with
  | some err =>
    [.since (env.since 0), .display (display fmtMs target result (some err) (env.since 0)),
     .since (env.since 1), .sleep (untilSecond (env.since 1))]
  | none =>
    let dials := env.dialArgs.map fun a => dialContext target a.1 a.2
    let result :=
      match env.gotConn with
      | some a => { result with RemoteAddr := a }
      | none => result
    match env.doResult with
    | .error err =>
      [.clientDo target.Method target.Url] ++ dials ++
        [.since (env.since 0), .display (display fmtMs target result (some err) (env.since 0)),
         .since (env.since 1), .sleep (untilSecond (env.since 1))]
    | .ok resp =>
      let result := { result with
        Status := resp.StatusCode, body := resp.Body,
        Headers := resp.Header.map fun kv => (kv.1, kv.2.1) }
      [.clientDo target.Method target.Url] ++ dials ++
        [.since (env.since 0), .display (display fmtMs target result none (env.since 0)),
         .since (env.since 1)] ++
        (if untilSecond (env.since 1) > 0 then
          [.since (env.since 2), .sleep (untilSecond (env.since 2))]
        else [])

/-! ## `probe` (lines 64-157) -/

/-- Go `probe(target)`, observed for as many iterations of its endless loop as
`envs` has entries: the effects in program order. -/
def probe (parse : String → Except String URL) (lookupHost : String → String → List String)
    (draw : Nat) (fmtMs : Int → String) (target : Request) (envs : List IterEnv) : List Effect :=
  let s := probeSetup parse lookupHost draw target
  if s.loop then s.effects ++ (envs.map (probeIteration fmtMs s.target)).flatten
  else s.effects

/-! ## Reading a trace -/

/-- Go `time.Sleep(d)`: how long it pauses; nothing for `d <= 0`. -/
def sleepPause (d : Int) : Int := if d ≤ 0 then 0 else d

/-- Total pause of a trace. -/
def totalPause : List Effect → Int
  | [] => 0
  | .sleep d :: es => sleepPause d + totalPause es
  | _ :: es => totalPause es

/-- The texts printed by `display` in a trace. -/
def displayed : List Effect → List String
  | [] => []
  | .display t :: es => t :: displayed es
  | _ :: es => displayed es

/-- Whether the effect is the startup banner. -/
def Effect.isBanner : Effect → Bool
  | .printBanner _ _ _ _ => true
  | _ => false

/-- Whether the effect is a DNS lookup. -/
def Effect.isLookup : Effect → Bool
  | .lookupHost _ _ => true
  | _ => false

/-- Whether the effect belongs to a request: `client.Do` or a dial. -/
def Effect.isRequest : Effect → Bool
  | .clientDo _ _ => true
  | .dial _ _ => true
  | _ => false

/-- An example iteration: `http://example.com` pinned to `10.0.0.1` and set up,
a response `200` with the clock at 0.1 s at every reading. -/
def pacingExample : List Effect :=
  probeIteration (fun _ => "100.00")
    (probeSetup urlParse (fun _ _ => []) 0
      (defaultRequest "http://example.com" "10.0.0.1")).target
    ⟨fun _ => 100000000, none, [("tcp", "example.com:80")], some "10.0.0.1:80",
      .ok ⟨200, [], []⟩⟩

/-! ## Lemmas on the library models -/

theorem splitLast_snd_all (c : Char) (p : Char → Bool) :
    ∀ (l a b : List Char), splitLast c l = some (a, b) → l.all p = true → b.all p = true
  | [], a, b, h, _ => by simp [splitLast] at h
  | x :: xs, a, b, h, hl => by
    simp only [List.all_cons, Bool.and_eq_true] at hl
    unfold splitLast at h
    cases hxs : splitLast c xs with
    | some ab =>
      obtain ⟨a1, b1⟩ := ab
      simp only [hxs, Option.some.injEq, Prod.mk.injEq] at h
      exact h.2 ▸ splitLast_snd_all c p xs a1 b1 hxs hl.2
    | none =>
      simp only [hxs] at h
      split_ifs at h
      simp only [Option.some.injEq, Prod.mk.injEq] at h
      exact h.2 ▸ hl.2

/-- What `(*URL).Port()` returns consists of digits only. -/
theorem port_all_digits (u : URL) : u.Port.toList.all Char.isDigit = true := by
  unfold URL.Port splitHostPort
  cases h : splitLast ':' u.Host.toList with
  | none => simp
  | some ab =>
    obtain ⟨a, b⟩ := ab
    by_cases hv : validOptionalPort (':' :: b) = true
    · simp only [hv, if_true]
      simpa [validOptionalPort] using hv
    · simp [hv]

theorem parseUintLoop_digits :
    ∀ (ds : List Char) (n : Nat), ds.all Char.isDigit = true →
      n * 10 ^ ds.length + Nat.ofDigits 10 (ds.reverse.map fun c => c.toNat - 48) ≤ maxUint64 →
      parseUintLoop n ds
        = .ok (n * 10 ^ ds.length + Nat.ofDigits 10 (ds.reverse.map fun c => c.toNat - 48))
  | [], n, _, _ => by simp [parseUintLoop]
  | c :: cs, n, hd, hb => by
    simp only [List.all_cons, Bool.and_eq_true] at hd
    have key : n * 10 ^ (c :: cs).length
          + Nat.ofDigits 10 ((c :: cs).reverse.map fun c => c.toNat - 48)
        = (n * 10 + (c.toNat - 48)) * 10 ^ cs.length
          + Nat.ofDigits 10 (cs.reverse.map fun c => c.toNat - 48) := by
      simp only [List.reverse_cons, List.map_append, List.map_cons, List.map_nil,
        Nat.ofDigits_append, Nat.ofDigits_singleton, List.length_map, List.length_reverse,
        List.length_cons]
      ring
    rw [key] at hb ⊢
    have h1 : n * 10 + (c.toNat - 48) ≤ maxUint64 := by
      have : (n * 10 + (c.toNat - 48)) * 1 ≤ (n * 10 + (c.toNat - 48)) * 10 ^ cs.length :=
        Nat.mul_le_mul_left _ (Nat.one_le_pow _ _ (by norm_num))
      omega
    have h2 : ¬ n ≥ maxUint64 / 10 + 1 := by
      have : maxUint64 = 18446744073709551615 := by decide
      omega
    unfold parseUintLoop
    simp only [hd.1, if_true, h2, if_false, Nat.not_lt.mpr h1]
    exact parseUintLoop_digits cs _ hd.2 hb

/-- On a non-empty digit string whose value fits a Go `int`, `Atoi` returns that
value and no error. -/
theorem Atoi_digits (s : String) (hne : s ≠ "") (hd : s.toList.all Char.isDigit = true)
    (hb : decimalValue s < 2 ^ 63) : Atoi s = ((decimalValue s : Int), true) := by
  have hl : s.toList ≠ [] := fun h => hne (String.ext (by simpa using h))
  have hloop := parseUintLoop_digits s.toList 0 hd (by
    have : maxUint64 = 18446744073709551615 := by decide
    simp only [zero_mul, zero_add]
    unfold decimalValue at hb
    omega)
  simp only [zero_mul, zero_add] at hloop
  change parseUintLoop 0 s.toList = .ok (decimalValue s) at hloop
  have hb2 : ¬ ((decimalValue s : Int) ≥ 2 ^ 63) := by
    have : ((decimalValue s : Nat) : Int) < 2 ^ 63 := by exact_mod_cast hb
    omega
  generalize decimalValue s = v at hloop hb hb2 ⊢
  have hb3 : v < 9223372036854775808 := by norm_num at hb; exact hb
  unfold Atoi
  cases hs : s.toList with
  | nil => exact absurd hs hl
  | cons c cs =>
    have hc : c.isDigit = true := by
      have := hd; rw [hs] at this
      simp only [List.all_cons, Bool.and_eq_true] at this
      exact this.1
    have hplus : c ≠ '+' := by rintro rfl; revert hc; decide
    have hminus : c ≠ '-' := by rintro rfl; revert hc; decide
    have body : parseIntBody false (c :: cs) = ((v : Int), true) := by
      unfold parseIntBody ParseUint
      rw [hs] at hloop
      simp only [hloop]
      simp [hb2, hb3]
    split
    · rename_i h; cases h
    · rename_i h; cases h; exact absurd rfl hplus
    · rename_i h; cases h; exact absurd rfl hminus
    · exact body

/-- Without a port, or with a port of value zero, `Atoi` gives zero. -/
theorem Atoi_port_zero (u : URL) (h : u.Port = "" ∨ decimalValue u.Port = 0) :
    (Atoi u.Port).1 = 0 := by
  by_cases he : u.Port = ""
  · rw [he]; decide
  · have hz : decimalValue u.Port = 0 := h.resolve_left he
    rw [Atoi_digits u.Port he (port_all_digits u) (by rw [hz]; norm_num), hz]
    rfl

/-! ## Lemmas on the setup phase -/

theorem setupAddress_port (lookupHost : String → String → List String) (draw : Nat) (u : URL)
    (t : Request) : (setupAddress lookupHost draw u t).target.Port = t.Port := by
  simp only [setupAddress]
  split_ifs <;> rfl

theorem setupAddress_url (lookupHost : String → String → List String) (draw : Nat) (u : URL)
    (t : Request) : (setupAddress lookupHost draw u t).target.Url = t.Url := by
  simp only [setupAddress]
  split_ifs <;> rfl

theorem setupAddress_banner (lookupHost : String → String → List String) (draw : Nat) (u : URL)
    (t : Request) (h : (setupAddress lookupHost draw u t).loop = true) :
    Effect.printBanner (setupAddress lookupHost draw u t).target.Url
        (setupAddress lookupHost draw u t).target.Port
        (setupAddress lookupHost draw u t).target.Method
        (setupAddress lookupHost draw u t).target.Timeout
      ∈ (setupAddress lookupHost draw u t).effects := by
  simp only [setupAddress] at h ⊢
  split_ifs at h ⊢ <;> simp_all

/-- The URL after the setup is the one lines 65-67 leave, on every path. -/
theorem probeSetup_url (parse : String → Except String URL)
    (lookupHost : String → String → List String) (draw : Nat) (t : Request) :
    (probeSetup parse lookupHost draw t).target.Url = (defaultScheme t).Url := by
  cases hp : parse (defaultScheme t).Url with
  | error e => simp only [probeSetup, hp]
  | ok u =>
    simp only [probeSetup, hp]
    split_ifs <;> simp [setupAddress_url]

/-- Lines 65-67 on the targets they handle as the specification says: a target
that does not begin with `http` gets `http://` in front, once; a target that
begins with `http://` or `https://` is kept. -/
theorem defaultScheme_url (t : Request) :
    (HasPrefix t.Url "http" = false → (defaultScheme t).Url = "http://" ++ t.Url) ∧
    (HasPrefix t.Url "http://" = true ∨ HasPrefix t.Url "https://" = true →
      (defaultScheme t).Url = t.Url) := by
  constructor
  · intro h
    simp [defaultScheme, h]
  · intro h
    have hp : HasPrefix t.Url "http" = true := by
      unfold HasPrefix at h ⊢
      simp only [List.isPrefixOf_iff_prefix] at h ⊢
      rcases h with h | h
      · exact List.IsPrefix.trans (by decide : "http".toList <+: "http://".toList) h
      · exact List.IsPrefix.trans (by decide : "http".toList <+: "https://".toList) h
    simp [defaultScheme, hp]

/-! ## The claims on the setup phase -/

/-- C1 (the code at the failing input): the target `httpbin.org` begins with
neither `http://` nor `https://`, yet the setup leaves the URL as it is, without
`http://` in front, and `probe` then returns on the port check, having printed
`Invalid target port: 0`. -/
theorem C1_httpbin_target_not_prefixed :
    HasPrefix "httpbin.org" "http://" = false ∧ HasPrefix "httpbin.org" "https://" = false ∧
    (probeSetup urlParse (fun _ _ => ["93.184.216.34"]) 0
      (defaultRequest "httpbin.org" "")).target.Url = "httpbin.org" ∧
    (probeSetup urlParse (fun _ _ => ["93.184.216.34"]) 0
      (defaultRequest "httpbin.org" "")).effects = [.printInvalidPort 0] ∧
    (probeSetup urlParse (fun _ _ => ["93.184.216.34"]) 0
      (defaultRequest "httpbin.org" "")).loop = false := by
  decide

/-- C2 (counterexample): `http://example.com:0` carries the explicit port `0`,
and the effective port is 80, not 0. -/
theorem C2_explicit_port_zero_is_defaulted :
    urlParse "http://example.com:0" = .ok ⟨"http", "", "example.com:0", "", "", ""⟩ ∧
    URL.Port ⟨"http", "", "example.com:0", "", "", ""⟩ = "0" ∧
    (probeSetup urlParse (fun _ _ => []) 0
      (defaultRequest "http://example.com:0" "10.0.0.1")).target.Port = 80 := by
  refine ⟨rfl, by decide, by decide⟩

/-- C2 (amended): for a parsed URL whose explicit port is a numeral of value
between 1 and 2^63 - 1, the effective port is that value; for a URL without a
port, or with a port of value zero, the effective port is 80 when the scheme is
`http` and 443 when it is `https`. -/
theorem C2_port_resolution (parse : String → Except String URL)
    (lookupHost : String → String → List String) (draw : Nat) (t : Request) (u : URL)
    (hparse : parse (defaultScheme t).Url = .ok u) :
    (u.Port ≠ "" → 0 < decimalValue u.Port → decimalValue u.Port < 2 ^ 63 →
      (probeSetup parse lookupHost draw t).target.Port = decimalValue u.Port) ∧
    (u.Port = "" ∨ decimalValue u.Port = 0 → u.Scheme = "http" →
      (probeSetup parse lookupHost draw t).target.Port = 80) ∧
    (u.Port = "" ∨ decimalValue u.Port = 0 → u.Scheme = "https" →
      (probeSetup parse lookupHost draw t).target.Port = 443) := by
  refine ⟨?_, ?_, ?_⟩
  · intro hne hpos hlt
    have ha := Atoi_digits u.Port hne (port_all_digits u) hlt
    have hnz : ((decimalValue u.Port : Nat) : Int) ≠ 0 := by exact_mod_cast hpos.ne'
    simp [probeSetup, hparse, ha, hnz, setupAddress_port]
  · intro h hs
    have ha := Atoi_port_zero u h
    simp [probeSetup, hparse, ha, hs, setupAddress_port]
  · intro h hs
    have ha := Atoi_port_zero u h
    have hs2 : u.Scheme ≠ "http" := by rw [hs]; decide
    simp [probeSetup, hparse, ha, hs, setupAddress_port]

/-- C2 (witness): `https://example.com:8443` has port 8443, and
`https://example.com` the default 443. -/
theorem C2_port_resolution_witness :
    (probeSetup urlParse (fun _ _ => []) 0
      (defaultRequest "https://example.com:8443" "10.0.0.1")).target.Port = 8443 ∧
    (probeSetup urlParse (fun _ _ => []) 0
      (defaultRequest "https://example.com" "10.0.0.1")).target.Port = 443 :=
  ⟨(C2_port_resolution urlParse (fun _ _ => []) 0
      (defaultRequest "https://example.com:8443" "10.0.0.1")
      ⟨"https", "", "example.com:8443", "", "", ""⟩ rfl).1
      (by decide) (by decide) (by decide),
   (C2_port_resolution urlParse (fun _ _ => []) 0
      (defaultRequest "https://example.com" "10.0.0.1")
      ⟨"https", "", "example.com", "", "", ""⟩ rfl).2.2 (Or.inl (by decide)) rfl⟩

/-- C3 (counterexample): `httpx://host:8080` parses with the scheme `httpx`, and
with the address given by `--ip` the setup prints the banner and control
reaches the loop, where `client.Do` is called. -/
theorem C3_httpx_with_port_reaches_loop :
    urlParse "httpx://host:8080" = .ok ⟨"httpx", "", "host:8080", "", "", ""⟩ ∧
    (probeSetup urlParse (fun _ _ => []) 0
      (defaultRequest "httpx://host:8080" "10.0.0.1")).loop = true ∧
    (probeSetup urlParse (fun _ _ => []) 0
      (defaultRequest "httpx://host:8080" "10.0.0.1")).effects
      = [.printBanner "httpx://host:8080" 8080 "GET" 2000000000] ∧
    Effect.clientDo "GET" "httpx://host:8080" ∈
      probe urlParse (fun _ _ => []) 0 (fun _ => "0.00")
        (defaultRequest "httpx://host:8080" "10.0.0.1")
        [⟨fun _ => 0, none, [], none, .error "unsupported protocol scheme"⟩] := by
  refine ⟨rfl, by decide, by decide, by decide⟩

/-- C3 (amended): when the parsed URL has a scheme other than `http` and `https`
and no port, or a port of value zero, `probe` returns during the setup: all it
does is print `Invalid target port: 0`; no banner, no lookup, no request. -/
theorem C3_other_scheme_without_port_aborts (parse : String → Except String URL)
    (lookupHost : String → String → List String) (draw : Nat) (fmtMs : Int → String)
    (t : Request) (u : URL) (envs : List IterEnv)
    (hparse : parse (defaultScheme t).Url = .ok u)
    (hhttp : u.Scheme ≠ "http") (hhttps : u.Scheme ≠ "https")
    (hport : u.Port = "" ∨ decimalValue u.Port = 0) :
    (probeSetup parse lookupHost draw t).loop = false ∧
    probe parse lookupHost draw fmtMs t envs = [.printInvalidPort 0] := by
  have ha := Atoi_port_zero u hport
  have hs : probeSetup parse lookupHost draw t
      = ⟨{ defaultScheme t with Port := 0 }, [.printInvalidPort 0], false⟩ := by
    simp [probeSetup, hparse, ha, hhttp, hhttps]
  constructor
  · rw [hs]
  · unfold probe
    rw [hs]
    simp

/-- C3 (witness): `httpx://host` is rejected. -/
theorem C3_other_scheme_without_port_aborts_witness :
    probe urlParse (fun _ _ => ["10.0.0.1"]) 0 (fun _ => "0.00")
      (defaultRequest "httpx://host" "10.0.0.1")
      [⟨fun _ => 0, none, [], none, .error "unsupported protocol scheme"⟩]
      = [.printInvalidPort 0] :=
  (C3_other_scheme_without_port_aborts urlParse (fun _ _ => ["10.0.0.1"]) 0 (fun _ => "0.00")
    (defaultRequest "httpx://host" "10.0.0.1") ⟨"httpx", "", "host", "", "", ""⟩
    [⟨fun _ => 0, none, [], none, .error "unsupported protocol scheme"⟩]
    rfl (by decide) (by decide) (Or.inl (by decide))).2

/-- C4: whenever the setup reaches the loop, the banner has been printed with
the effective port and that port is not zero; and when `Atoi` gives zero for the
port of the parsed URL and the scheme is neither `http` nor `https`, `probe`
returns before the loop. -/
theorem C4_port_nonzero_at_loop (parse : String → Except String URL)
    (lookupHost : String → String → List String) (draw : Nat) (t : Request) :
    ((probeSetup parse lookupHost draw t).loop = true →
      (probeSetup parse lookupHost draw t).target.Port ≠ 0 ∧
      Effect.printBanner (probeSetup parse lookupHost draw t).target.Url
          (probeSetup parse lookupHost draw t).target.Port
          (probeSetup parse lookupHost draw t).target.Method
          (probeSetup parse lookupHost draw t).target.Timeout
        ∈ (probeSetup parse lookupHost draw t).effects) ∧
    (∀ u, parse (defaultScheme t).Url = .ok u → (Atoi u.Port).1 = 0 →
      u.Scheme ≠ "http" → u.Scheme ≠ "https" →
      (probeSetup parse lookupHost draw t).loop = false) := by
  constructor
  · cases hp : parse (defaultScheme t).Url with
    | error e => simp [probeSetup, hp]
    | ok u =>
      simp only [probeSetup, hp]
      split_ifs with h0 h1 h2
      · intro hl
        exact ⟨by simp [setupAddress_port], setupAddress_banner _ _ _ _ hl⟩
      · intro hl
        exact ⟨by simp [setupAddress_port], setupAddress_banner _ _ _ _ hl⟩
      · simp
      · intro hl
        exact ⟨by simpa [setupAddress_port] using h0, setupAddress_banner _ _ _ _ hl⟩
  · intro u hp h0 h1 h2
    simp [probeSetup, hp, h0, h1, h2]

/-! ## The claims on `resolve` -/

theorem resolve_effects (lookupHost : String → String → List String) (draw : Nat) (u : URL)
    (dnsIp : String) :
    (resolve lookupHost draw (some u) dnsIp).2 = [.lookupHost dnsIp u.Hostname] := by
  simp only [resolve]
  split <;> rfl

theorem resolve_of_no_ipv4 (lookupHost : String → String → List String) (draw : Nat) (u : URL)
    (dnsIp : String) (h : ipv4Filter (lookupHost dnsIp u.Hostname) = []) :
    (resolve lookupHost draw (some u) dnsIp).1 = "" := by
  simp [resolve, h]

/-- With two addresses or more after the filter, `resolve` returns the entry at
an index below `n - 1`: the last position is out of reach of the draw. -/
theorem resolve_selects_before_last (lookupHost : String → String → List String) (draw : Nat)
    (u : URL) (dnsIp : String) (h : 2 ≤ (ipv4Filter (lookupHost dnsIp u.Hostname)).length) :
    ∃ k, k < (ipv4Filter (lookupHost dnsIp u.Hostname)).length - 1 ∧
      (resolve lookupHost draw (some u) dnsIp).1
        = (ipv4Filter (lookupHost dnsIp u.Hostname)).getD k "" := by
  refine ⟨randIntn draw ((ipv4Filter (lookupHost dnsIp u.Hostname)).length - 1), ?_, ?_⟩
  · exact Nat.mod_lt _ (by omega)
  · simp only [resolve]
    split
    · omega
    · omega
    · rfl

/-- C5 (the code at the failing input): when the lookup returns `10.0.0.1` and
`10.0.0.2`, `resolve` returns `10.0.0.1` for every draw of the random source;
`10.0.0.2`, the last entry, is never selected. -/
theorem C5_last_address_never_selected (draw : Nat) :
    (resolve (fun _ _ => ["10.0.0.1", "10.0.0.2"]) draw
      (some ⟨"http", "", "example.com", "", "", ""⟩) "1.1.1.1").1 = "10.0.0.1" := by
  have hf : ipv4Filter ["10.0.0.1", "10.0.0.2"] = ["10.0.0.1", "10.0.0.2"] := by decide
  simp [resolve, hf, randIntn, Nat.mod_one]

/-- C6: a non-empty result of `resolve` is one of the strings the lookup
returned and contains no colon; and when exactly one string passes the filter,
the result is that string, whatever the draw. -/
theorem C6_resolve_ipv4_only (lookupHost : String → String → List String) (draw : Nat)
    (u : URL) (dnsIp : String) :
    ((resolve lookupHost draw (some u) dnsIp).1 ≠ "" →
      (resolve lookupHost draw (some u) dnsIp).1 ∈ lookupHost dnsIp u.Hostname ∧
      Contains (resolve lookupHost draw (some u) dnsIp).1 ':' = false) ∧
    (∀ a, ipv4Filter (lookupHost dnsIp u.Hostname) = [a] →
      (resolve lookupHost draw (some u) dnsIp).1 = a) := by
  have hmem : ∀ k, k < (ipv4Filter (lookupHost dnsIp u.Hostname)).length →
      (ipv4Filter (lookupHost dnsIp u.Hostname)).getD k "" ∈ lookupHost dnsIp u.Hostname ∧
      Contains ((ipv4Filter (lookupHost dnsIp u.Hostname)).getD k "") ':' = false := by
    intro k hk
    have h1 : (ipv4Filter (lookupHost dnsIp u.Hostname)).getD k ""
        ∈ ipv4Filter (lookupHost dnsIp u.Hostname) := by
      rw [List.getD_eq_getElem _ _ hk]
      exact List.getElem_mem _
    unfold ipv4Filter at h1
    rw [List.mem_filter] at h1
    exact ⟨h1.1, by simpa using h1.2⟩
  constructor
  · intro hne
    simp only [resolve] at hne ⊢
    split at hne
    · exact absurd rfl hne
    · rename_i h1; exact hmem 0 (by omega)
    · rename_i h0 h1
      have h0n : (ipv4Filter (lookupHost dnsIp u.Hostname)).length ≠ 0 := h0
      have h1n : (ipv4Filter (lookupHost dnsIp u.Hostname)).length ≠ 1 := h1
      have hlen : 0 < (ipv4Filter (lookupHost dnsIp u.Hostname)).length - 1 := by omega
      exact hmem _ (Nat.lt_of_lt_of_le (Nat.mod_lt _ hlen) (Nat.sub_le _ _))
  · intro a ha
    simp [resolve, ha]

/-- C7: when no address is given and no string of the lookup result passes the
IPv4 filter (an empty result, which is also what a failed lookup leaves, or
IPv6 strings only), `resolve` returns the empty string and `probe` returns
during the setup: control does not reach the loop, and the trace of `probe`
has neither the banner nor a request. -/
theorem C7_no_ipv4_aborts (parse : String → Except String URL)
    (lookupHost : String → String → List String) (draw : Nat) (fmtMs : Int → String)
    (t : Request) (envs : List IterEnv) (hip : t.IpAddr = "")
    (hno : ∀ u, parse (defaultScheme t).Url = .ok u →
      ipv4Filter (lookupHost t.DnsIp u.Hostname) = []) :
    (∀ u, parse (defaultScheme t).Url = .ok u →
      (resolve lookupHost draw (some u) t.DnsIp).1 = "") ∧
    (probeSetup parse lookupHost draw t).loop = false ∧
    (∀ e ∈ probe parse lookupHost draw fmtMs t envs,
      e.isBanner = false ∧ e.isRequest = false) := by
  have hd : (defaultScheme t).IpAddr = "" ∧ (defaultScheme t).DnsIp = t.DnsIp := by
    unfold defaultScheme
    split_ifs <;> simp [hip]
  have hsa : ∀ u (t2 : Request), parse (defaultScheme t).Url = .ok u → t2.IpAddr = "" →
      t2.DnsIp = t.DnsIp →
      (setupAddress lookupHost draw u t2).loop = false ∧
      ∀ e ∈ (setupAddress lookupHost draw u t2).effects,
        e.isBanner = false ∧ e.isRequest = false := by
    intro u t2 hp h2 hdns
    have hr := resolve_of_no_ipv4 lookupHost draw u t.DnsIp (hno u hp)
    simp [setupAddress, h2, hdns, hr, resolve_effects, Effect.isBanner, Effect.isRequest]
  have hset : (probeSetup parse lookupHost draw t).loop = false ∧
      ∀ e ∈ (probeSetup parse lookupHost draw t).effects,
        e.isBanner = false ∧ e.isRequest = false := by
    cases hp : parse (defaultScheme t).Url with
    | error e => simp [probeSetup, hp, Effect.isBanner, Effect.isRequest]
    | ok u =>
      simp only [probeSetup, hp]
      split_ifs
      · exact hsa u _ hp hd.1 hd.2
      · exact hsa u _ hp hd.1 hd.2
      · simp [Effect.isBanner, Effect.isRequest]
      · exact hsa u _ hp hd.1 hd.2
  refine ⟨fun u hp => resolve_of_no_ipv4 lookupHost draw u t.DnsIp (hno u hp), hset.1, ?_⟩
  intro e he
  unfold probe at he
  simp only [hset.1] at he
  exact hset.2 e he

/-- C7 (witness): `example.com` resolved to an IPv6 address only. -/
theorem C7_no_ipv4_aborts_witness :
    probe urlParse (fun _ _ => ["2606:2800:220:1:248:1893:25c8:1946"]) 0 (fun _ => "0.00")
      (defaultRequest "example.com" "")
      [⟨fun _ => 0, none, [], none, .error "timeout"⟩]
      = [.lookupHost "1.1.1.1" "example.com", .printInvalidAddress "http://example.com",
         .printErrDns] ∧
    (probeSetup urlParse (fun _ _ => ["2606:2800:220:1:248:1893:25c8:1946"]) 0
      (defaultRequest "example.com" "")).loop = false :=
  ⟨by decide,
   (C7_no_ipv4_aborts urlParse (fun _ _ => ["2606:2800:220:1:248:1893:25c8:1946"]) 0
      (fun _ => "0.00") (defaultRequest "example.com" "")
      [⟨fun _ => 0, none, [], none, .error "timeout"⟩] rfl
      (fun _ _ => (by decide : ipv4Filter ["2606:2800:220:1:248:1893:25c8:1946"] = []))).2.1⟩

/-! ## The claims on the loop -/

theorem setupAddress_of_ip (lookupHost : String → String → List String) (draw : Nat) (u : URL)
    (t : Request) (h : t.IpAddr ≠ "") :
    setupAddress lookupHost draw u t
      = ⟨t, [.printBanner t.Url t.Port t.Method t.Timeout], true⟩ := by
  simp [setupAddress, h]

theorem probeIteration_mem (fmtMs : Int → String) (target : Request) (env : IterEnv)
    (e : Effect) (he : e ∈ probeIteration fmtMs target env) :
    e.isLookup = false ∧
    ∀ network addr, e = .dial network addr →
      addr = target.IpAddr ++ ":" ++ toString target.Port := by
  simp only [probeIteration] at he
  split at he
  · simp only [List.mem_cons, List.mem_singleton, List.not_mem_nil, or_false] at he
    rcases he with h | h | h | h <;> subst h <;> simp [Effect.isLookup]
  · split at he
    · simp only [List.mem_append, List.mem_cons, List.mem_singleton, List.not_mem_nil, or_false,
        List.mem_map] at he
      rcases he with (h | ⟨a, _, h⟩) | h | h | h | h <;> subst h <;>
        simp [Effect.isLookup, dialContext]
    · simp only [List.mem_append, List.mem_cons, List.mem_singleton, List.not_mem_nil, or_false,
        List.mem_map] at he
      rcases he with ((h | ⟨a, _, h⟩) | h | h | h) | h
      · subst h; simp [Effect.isLookup]
      · subst h; simp [Effect.isLookup, dialContext]
      · subst h; simp [Effect.isLookup]
      · subst h; simp [Effect.isLookup]
      · subst h; simp [Effect.isLookup]
      · split_ifs at h
        · simp only [List.mem_cons, List.mem_singleton, List.not_mem_nil, or_false] at h
          rcases h with h | h <;> subst h <;> simp [Effect.isLookup]
        · simp at h

/-- C8: with a non-empty `--ip`, the setup does not depend on the resolver (no
lookup is made, whatever the DNS would answer), it leaves `IpAddr` as given,
and in the whole run of `probe` there is no lookup and every dial goes to
`<IpAddr>:<Port>`; the dial hook overwrites whatever address it is passed. -/
theorem C8_explicit_ip_is_pinned (parse : String → Except String URL)
    (lookupHost : String → String → List String) (draw : Nat) (t : Request)
    (hip : t.IpAddr ≠ "") :
    (∀ (lookupHost2 : String → String → List String) (draw2 : Nat),
      probeSetup parse lookupHost2 draw2 t = probeSetup parse lookupHost draw t) ∧
    (probeSetup parse lookupHost draw t).target.IpAddr = t.IpAddr ∧
    (∀ (fmtMs : Int → String) (envs : List IterEnv),
      ∀ e ∈ probe parse lookupHost draw fmtMs t envs,
        e.isLookup = false ∧
        ∀ network addr, e = .dial network addr →
          addr = t.IpAddr ++ ":" ++ toString (probeSetup parse lookupHost draw t).target.Port) ∧
    (∀ network addr, dialContext (probeSetup parse lookupHost draw t).target network addr
      = .dial network
          (t.IpAddr ++ ":" ++ toString (probeSetup parse lookupHost draw t).target.Port)) := by
  have hd : (defaultScheme t).IpAddr ≠ "" ∧ (defaultScheme t).IpAddr = t.IpAddr := by
    unfold defaultScheme
    split_ifs <;> simp [hip]
  have hindep : ∀ (l2 : String → String → List String) (d2 : Nat),
      probeSetup parse l2 d2 t = probeSetup parse lookupHost draw t := by
    intro l2 d2
    cases hp : parse (defaultScheme t).Url with
    | error e => simp only [probeSetup, hp]
    | ok u =>
      simp only [probeSetup, hp]
      split_ifs <;> simp [setupAddress, hd.1]
  have hipaddr : (probeSetup parse lookupHost draw t).target.IpAddr = t.IpAddr := by
    cases hp : parse (defaultScheme t).Url with
    | error e => simp only [probeSetup, hp, hd.2]
    | ok u =>
      simp only [probeSetup, hp]
      split_ifs <;> simp [setupAddress, hd.2, hip]
  have hsetup : ∀ e ∈ (probeSetup parse lookupHost draw t).effects,
      e.isLookup = false ∧ ∀ network addr, e ≠ .dial network addr := by
    cases hp : parse (defaultScheme t).Url with
    | error e => simp [probeSetup, hp, Effect.isLookup]
    | ok u =>
      simp only [probeSetup, hp]
      split_ifs <;> simp [setupAddress, hd.1, Effect.isLookup]
  refine ⟨hindep, hipaddr, ?_, ?_⟩
  · intro fmtMs envs e he
    unfold probe at he
    simp only at he
    split_ifs at he
    · rw [List.mem_append] at he
      rcases he with he | he
      · exact ⟨(hsetup e he).1, fun n a h => absurd h ((hsetup e he).2 n a)⟩
      · simp only [List.mem_flatten, List.mem_map] at he
        obtain ⟨l, ⟨env, _, rfl⟩, hel⟩ := he
        have := probeIteration_mem fmtMs _ env e hel
        rw [hipaddr] at this
        exact this
    · exact ⟨(hsetup e he).1, fun n a h => absurd h ((hsetup e he).2 n a)⟩
  · intro network addr
    simp [dialContext, hipaddr]

/-- C8 (witness): `https://example.com` with `--ip 10.0.0.1`: the client asks
the hook for `example.com:443` and the dial goes to `10.0.0.1:443`. -/
theorem C8_explicit_ip_is_pinned_witness :
    probe urlParse (fun _ _ => ["93.184.216.34"]) 0 (fun _ => "0.00")
      (defaultRequest "https://example.com" "10.0.0.1")
      [⟨fun _ => 2000000000, none, [("tcp", "example.com:443")], none, .error "timeout"⟩]
    = [.printBanner "https://example.com" 443 "GET" 2000000000,
       .clientDo "GET" "https://example.com", .dial "tcp" "10.0.0.1:443",
       .since 2000000000,
       .display "Remote 10.0.0.1:443 time=0.00ms err=timeout\n",
       .since 2000000000, .sleep (-1000000000)] ∧
    (probeSetup urlParse (fun _ _ => ["93.184.216.34"]) 0
      (defaultRequest "https://example.com" "10.0.0.1")).target.IpAddr = "10.0.0.1" :=
  ⟨by decide,
   (C8_explicit_ip_is_pinned urlParse (fun _ _ => ["93.184.216.34"]) 0
      (defaultRequest "https://example.com" "10.0.0.1") (by decide)).2.1⟩

/-- C9: without a transport error the text printed by `display` ends in `OK`
and a newline exactly when the status of the response equals the expected one,
and in `FAIL` and a newline exactly when it differs; with a transport error the
text is the `Remote <addr>:<port> time=...ms err=<message>` line, which depends
neither on the status of the response nor on the expected status. -/
theorem C9_display_classification (fmtMs : Int → String) (r : Request) (resp : Response)
    (d : Int) :
    ("OK\n".toList <:+ (display fmtMs r resp none d).toList
      ↔ resp.Status = r.ExpectedStatus) ∧
    ("FAIL\n".toList <:+ (display fmtMs r resp none d).toList
      ↔ resp.Status ≠ r.ExpectedStatus) ∧
    (∀ e, display fmtMs r resp (some e) d
      = "Remote " ++ resp.RemoteAddr ++ ":" ++ toString r.Port ++ " time="
          ++ fmtMs (microseconds d) ++ "ms err=" ++ e ++ "\n") ∧
    (∀ e status expected,
      display fmtMs { r with ExpectedStatus := expected } { resp with Status := status }
        (some e) d = display fmtMs r resp (some e) d) := by
  have hok : ∀ pre : List Char, ¬ ("FAIL\n".toList <:+ pre ++ " - OK\n".toList) := by
    intro pre h
    have := List.suffix_of_suffix_length_le h (List.suffix_append pre " - OK\n".toList)
      (by decide)
    revert this
    decide
  have hfail : ∀ pre : List Char, ¬ ("OK\n".toList <:+ pre ++ " - FAIL\n".toList) := by
    intro pre h
    have := List.suffix_of_suffix_length_le h (List.suffix_append pre " - FAIL\n".toList)
      (by decide)
    revert this
    decide
  have hok2 : ∀ pre : List Char, "OK\n".toList <:+ pre ++ " - OK\n".toList := by
    intro pre
    exact List.IsSuffix.trans (by decide : "OK\n".toList <:+ " - OK\n".toList)
      (List.suffix_append pre _)
  have hfail2 : ∀ pre : List Char, "FAIL\n".toList <:+ pre ++ " - FAIL\n".toList := by
    intro pre
    exact List.IsSuffix.trans (by decide : "FAIL\n".toList <:+ " - FAIL\n".toList)
      (List.suffix_append pre _)
  have hshape : ∀ verdict : String, ∃ pre : List Char,
      ("Connected " ++ resp.RemoteAddr ++ " code=" ++ toString resp.Status ++ " time="
        ++ fmtMs (microseconds d) ++ "ms - " ++ verdict ++ "\n").toList
        = pre ++ (" - " ++ verdict ++ "\n").toList := by
    intro verdict
    refine ⟨("Connected " ++ resp.RemoteAddr ++ " code=" ++ toString resp.Status ++ " time="
        ++ fmtMs (microseconds d) ++ "ms").toList, ?_⟩
    simp [String.toList, String.data_append]
  refine ⟨?_, ?_, fun e => rfl, fun e status expected => rfl⟩
  · by_cases h : resp.Status = r.ExpectedStatus
    · obtain ⟨pre, hpre⟩ := hshape "OK"
      simp only [display, h, ne_eq, not_true_eq_false, if_false, iff_true]
      rw [h] at hpre
      rw [hpre]
      exact hok2 pre
    · obtain ⟨pre, hpre⟩ := hshape "FAIL"
      simp only [display, h, ne_eq, not_false_eq_true, if_true, iff_false]
      rw [hpre]
      exact hfail pre
  · by_cases h : resp.Status = r.ExpectedStatus
    · obtain ⟨pre, hpre⟩ := hshape "OK"
      simp only [display, h, ne_eq, not_true_eq_false, if_false, iff_false]
      rw [h] at hpre
      rw [hpre]
      exact hok pre
    · obtain ⟨pre, hpre⟩ := hshape "FAIL"
      simp only [display, h, ne_eq, not_false_eq_true, if_true, iff_true]
      rw [hpre]
      exact hfail2 pre

theorem untilSecond_eq (d : Int) (h0 : 0 ≤ d) (h1 : d ≤ maxInt) : untilSecond d = second - d := by
  have hm : maxInt = 9223372036854775807 := by decide
  unfold untilSecond wrapInt64 second
  norm_num
  omega

theorem sleepPause_untilSecond (d : Int) (h0 : 0 ≤ d) (h1 : d ≤ maxInt) :
    sleepPause (untilSecond d) = if d < second then second - d else 0 := by
  rw [untilSecond_eq d h0 h1]
  unfold sleepPause
  split_ifs <;> omega

theorem displayed_append (a b : List Effect) :
    displayed (a ++ b) = displayed a ++ displayed b := by
  induction a with
  | nil => rfl
  | cons e es ih => cases e <;> simp [displayed, ih]

theorem totalPause_append (a b : List Effect) :
    totalPause (a ++ b) = totalPause a + totalPause b := by
  induction a with
  | nil => simp [totalPause]
  | cons e es ih => cases e <;> simp [totalPause, ih, add_assoc]

theorem displayed_dials (target : Request) (args : List (String × String)) :
    displayed (args.map fun a => dialContext target a.1 a.2) = [] := by
  induction args with
  | nil => rfl
  | cons a as ih => simpa [displayed, dialContext] using ih

theorem totalPause_dials (target : Request) (args : List (String × String)) :
    totalPause (args.map fun a => dialContext target a.1 a.2) = 0 := by
  induction args with
  | nil => rfl
  | cons a as ih => simpa [totalPause, dialContext] using ih

/-- C10: in every iteration, whichever of the three exits is taken, the trace
is: effects that neither report nor pause, then one `display`, of the time
`env.since 0` read for it, then effects that do not report. On the two error
exits (request construction, transport) the pause is one second minus the
elapsed time `env.since 1` read for the sleep when that is under one second,
and nothing otherwise. On the response exit the elapsed time is read for the
test (`env.since 1`) and again for the sleep (`env.since 2`): the pause is one
second minus the latter when both are under one second, and nothing otherwise.
So the three exits pause alike: with the clock at `e` when the pause is
decided, they pause `second - e` for `e` under one second and not at all from
one second on. The readings of `time.Since` are those of a monotonic clock:
non-negative, within the range of `time.Duration`. -/
theorem C10_pacing (fmtMs : Int → String) (target : Request) (env : IterEnv)
    (hclock : ∀ k, 0 ≤ env.since k ∧ env.since k ≤ maxInt) :
    (∃ (before : List Effect) (text : String) (after : List Effect),
      probeIteration fmtMs target env = before ++ .display text :: after ∧
      displayed before = [] ∧ totalPause before = 0 ∧ displayed after = [] ∧
      displayed (probeIteration fmtMs target env) = [text]) ∧
    (∀ err, env.newRequestErr = some err →
      (∃ resp, displayed (probeIteration fmtMs target env)
        = [display fmtMs target resp (some err) (env.since 0)]) ∧
      totalPause (probeIteration fmtMs target env)
        = if env.since 1 < second then second - env.since 1 else 0) ∧
    (∀ err, env.newRequestErr = none → env.doResult = .error err →
      (∃ resp, displayed (probeIteration fmtMs target env)
        = [display fmtMs target resp (some err) (env.since 0)]) ∧
      totalPause (probeIteration fmtMs target env)
        = if env.since 1 < second then second - env.since 1 else 0) ∧
    (∀ r, env.newRequestErr = none → env.doResult = .ok r →
      (∃ resp, resp.Status = r.StatusCode ∧
        displayed (probeIteration fmtMs target env)
          = [display fmtMs target resp none (env.since 0)]) ∧
      totalPause (probeIteration fmtMs target env)
        = if env.since 1 < second then
            (if env.since 2 < second then second - env.since 2 else 0)
          else 0) ∧
    (∀ e, env.since 1 = e → env.since 2 = e →
      totalPause (probeIteration fmtMs target env) = if e < second then second - e else 0) := by
  have p1 := sleepPause_untilSecond (env.since 1) (hclock 1).1 (hclock 1).2
  have p2 := sleepPause_untilSecond (env.since 2) (hclock 2).1 (hclock 2).2
  have u1 := untilSecond_eq (env.since 1) (hclock 1).1 (hclock 1).2
  cases hn : env.newRequestErr with
  | some err0 =>
    have htr : probeIteration fmtMs target env
        = [.since (env.since 0)] ++ .display (display fmtMs target
            (if target.IpAddr ≠ "" then { (⟨"", 0, [], []⟩ : Response) with
              RemoteAddr := target.IpAddr } else ⟨"", 0, [], []⟩) (some err0) (env.since 0))
          :: [.since (env.since 1), .sleep (untilSecond (env.since 1))] := by
      simp only [probeIteration, hn]
      rfl
    have hpause : totalPause (probeIteration fmtMs target env)
        = if env.since 1 < second then second - env.since 1 else 0 := by
      rw [htr]; simp [totalPause, p1]
    refine ⟨⟨_, _, _, htr, rfl, rfl, rfl, by rw [htr]; rfl⟩, ?_, ?_, ?_, ?_⟩
    · intro err h
      cases h
      exact ⟨⟨_, by rw [htr]; rfl⟩, hpause⟩
    · intro err h; cases h
    · intro r h; cases h
    · intro e h1 _
      rw [hpause, h1]
  | none =>
    cases hr : env.doResult with
    | error err0 =>
      obtain ⟨resp0, htr⟩ : ∃ resp0, probeIteration fmtMs target env
          = ([.clientDo target.Method target.Url]
              ++ (env.dialArgs.map fun a => dialContext target a.1 a.2)
              ++ [.since (env.since 0)])
            ++ .display (display fmtMs target resp0 (some err0) (env.since 0))
            :: [.since (env.since 1), .sleep (untilSecond (env.since 1))] := by
        refine ⟨⟨env.gotConn.getD target.IpAddr, 0, [], []⟩, ?_⟩
        simp only [probeIteration, hn, hr]
        cases hg : env.gotConn <;> by_cases hi : target.IpAddr = "" <;> simp [hi]
      have hdisp : displayed (probeIteration fmtMs target env)
          = [display fmtMs target resp0 (some err0) (env.since 0)] := by
        rw [htr]; simp [displayed_append, displayed_dials, displayed]
      have hpause : totalPause (probeIteration fmtMs target env)
          = if env.since 1 < second then second - env.since 1 else 0 := by
        rw [htr]; simp [totalPause_append, totalPause_dials, totalPause, p1]
      refine ⟨⟨_, _, _, htr, ?_, ?_, rfl, hdisp⟩, ?_, ?_, ?_, ?_⟩
      · simp [displayed_append, displayed_dials, displayed]
      · simp [totalPause_append, totalPause_dials, totalPause]
      · intro err h; cases h
      · intro err _ h
        cases h
        exact ⟨⟨resp0, hdisp⟩, hpause⟩
      · intro r _ h; cases h
      · intro e h1 _
        rw [hpause, h1]
    | ok r0 =>
      obtain ⟨resp0, hst, htr⟩ : ∃ resp0 : Response, resp0.Status = r0.StatusCode ∧
          probeIteration fmtMs target env
          = ([.clientDo target.Method target.Url]
              ++ (env.dialArgs.map fun a => dialContext target a.1 a.2)
              ++ [.since (env.since 0)])
            ++ .display (display fmtMs target resp0 none (env.since 0))
            :: ([.since (env.since 1)] ++
                (if untilSecond (env.since 1) > 0 then
                  [.since (env.since 2), .sleep (untilSecond (env.since 2))]
                else [])) := by
        refine ⟨⟨env.gotConn.getD target.IpAddr, r0.StatusCode, r0.Body,
          r0.Header.map fun kv => (kv.1, kv.2.1)⟩, rfl, ?_⟩
        simp only [probeIteration, hn, hr]
        cases hg : env.gotConn <;> by_cases hi : target.IpAddr = "" <;> simp [hi]
      have hbefore : displayed ([Effect.clientDo target.Method target.Url]
              ++ (env.dialArgs.map fun a => dialContext target a.1 a.2)
              ++ [.since (env.since 0)]) = [] ∧
          totalPause ([Effect.clientDo target.Method target.Url]
              ++ (env.dialArgs.map fun a => dialContext target a.1 a.2)
              ++ [.since (env.since 0)]) = 0 := by
        constructor
        · simp [displayed_append, displayed_dials, displayed]
        · simp [totalPause_append, totalPause_dials, totalPause]
      by_cases hlt : env.since 1 < second
      · have hu : untilSecond (env.since 1) > 0 := by rw [u1]; omega
        rw [if_pos hu] at htr
        have hdisp : displayed (probeIteration fmtMs target env)
            = [display fmtMs target resp0 none (env.since 0)] := by
          rw [htr, displayed_append, hbefore.1]; rfl
        have hpause : totalPause (probeIteration fmtMs target env)
            = if env.since 2 < second then second - env.since 2 else 0 := by
          rw [htr, totalPause_append, hbefore.2]
          simp [totalPause, p2]
        refine ⟨⟨_, _, _, htr, hbefore.1, hbefore.2, rfl, hdisp⟩, ?_, ?_, ?_, ?_⟩
        · intro err h; cases h
        · intro err _ h; cases h
        · intro r _ h
          cases h
          exact ⟨⟨resp0, hst, hdisp⟩, by rw [hpause, if_pos hlt]⟩
        · intro e _ h2
          rw [hpause, h2]
      · have hu : ¬ untilSecond (env.since 1) > 0 := by rw [u1]; omega
        rw [if_neg hu] at htr
        have hdisp : displayed (probeIteration fmtMs target env)
            = [display fmtMs target resp0 none (env.since 0)] := by
          rw [htr, displayed_append, hbefore.1]; rfl
        have hpause : totalPause (probeIteration fmtMs target env) = 0 := by
          rw [htr, totalPause_append, hbefore.2]
          simp [totalPause]
        refine ⟨⟨_, _, _, htr, hbefore.1, hbefore.2, rfl, hdisp⟩, ?_, ?_, ?_, ?_⟩
        · intro err h; cases h
        · intro err _ h; cases h
        · intro r _ h
          cases h
          exact ⟨⟨resp0, hst, hdisp⟩, by rw [hpause, if_neg hlt]⟩
        · intro e h1 _
          rw [hpause, ← h1, if_neg hlt]

/-- C10 (witness): a response after 0.1 s, with the clock at 0.1 s when the
pause is computed: one line is printed and then the pause is 0.9 s. -/
theorem C10_pacing_witness :
    pacingExample
      = [.clientDo "GET" "http://example.com", .dial "tcp" "10.0.0.1:80", .since 100000000,
         .display "Connected 10.0.0.1:80 code=200 time=100.00ms - OK\n",
         .since 100000000, .since 100000000, .sleep 900000000] ∧
    totalPause pacingExample
      = (if (100000000 : Int) < second then second - 100000000 else 0) ∧
    totalPause pacingExample = 900000000 :=
  ⟨by decide,
   (C10_pacing (fun _ => "100.00")
    (probeSetup urlParse (fun _ _ => []) 0
      (defaultRequest "http://example.com" "10.0.0.1")).target
    ⟨fun _ => 100000000, none, [("tcp", "example.com:80")], some "10.0.0.1:80",
      .ok ⟨200, [], []⟩⟩
    (fun _ => (by decide : (0 : Int) ≤ 100000000 ∧ (100000000 : Int) ≤ maxInt))).2.2.2.2
    100000000 rfl rfl,
   by decide⟩

end Webping
